import Mathlib

/-!
Shallow embedding of `internal/config/config.go` (k9s configuration layer).

Pure functions of the source become Lean functions; the mutable `Config`
receiver becomes explicit state passing (`Config → ... → Except Err Config`).
Collaborators living outside the shown file (the `data`, `client` packages,
the K9s registry type, the filesystem and the YAML codec) are modelled either
as explicit environment records of injected results, or — where the spec
describes them — as definitions marked `Modelled from the spec:`.
-/

namespace K9sConfig

/-- Error taxonomy of the spec (IOError, DecodeError, NoActiveContextError,
NotFoundError, SettingsError, ValidationError). -/
inductive Err where
  | ioError (msg : String)
  | decodeError (msg : String)
  | noActiveContext
  | notFound (name : String)
  | settingsError (msg : String)
  | validationError (msg : String)
  | connError (msg : String)
deriving DecidableEq, Repr

deriving instance DecidableEq for Except

/-- Go `filepath.Ext`: scan the path from the right; stop at a path
separator; return the suffix from the final dot (dot included), else "". -/
def extGo : List Char → List Char → String
  | [], _ => ""
  | c :: rest, acc =>
    if c = '/' then ""
    else if c = '.' then String.mk ('.' :: acc)
    else extGo rest (c :: acc)

/-- Go `filepath.Ext path`. -/
def Ext (p : String) : String :=
  extGo p.data.reverse []

/-- Go `strings.TrimSuffix`: drop the suffix when present, else return the
string unchanged (spelled over character lists so that it evaluates in the
kernel). -/
def trimSuffix (s suf : String) : String :=
  if suf.data.isSuffixOf s.data then
    String.mk (s.data.take (s.data.length - suf.data.length))
  else s

/-- `isYamlFile` from config.go: the extension is `.yml` or `.yaml`. -/
def isYamlFile (file : String) : Bool :=
  Ext file == ".yml" || Ext file == ".yaml"

/-- `YamlExtension` from config.go.  `statExists` injects the result of
`os.Stat` (true when the stat does not report a missing file): a path that is
not a yaml file is logged and returned unchanged; otherwise the extension is
stripped and the `.yml` variant is returned when it exists on disk, else the
`.yaml` variant. -/
def YamlExtension (statExists : String → Bool) (path : String) : String :=
  if !isYamlFile path then path
  else
    if !statExists (trimSuffix path (Ext path) ++ ".yml") then
      trimSuffix path (Ext path) ++ ".yaml"
    else
      trimSuffix path (Ext path) ++ ".yml"

/-- Modelled from the spec: `client.NamespaceAll`, the "all namespaces"
sentinel value. -/
def NamespaceAll : String := "all"

/-- Modelled from the spec: `client.DefaultNamespace`, the hard-coded default
namespace constant substituted for an empty resolution. -/
def DefaultNamespace : String := "default"

/-- Modelled from the spec: `data.DefaultView`, the default active view
returned when no context is active. -/
def DefaultView : String := "po"

/-- Modelled from the spec: `data.DefaultDirMod`, the fixed directory mode
used when ensuring directories exist (octal 0744). -/
def DefaultDirMod : Nat := 484

/-- The fixed file mode `0644` passed to `os.WriteFile` in `SaveFile`. -/
def DefaultFileMod : Nat := 420

/-- `data.Namespace`: active namespace plus the favorites list. -/
structure Namespace where
  active : String
  favorites : List String
deriving DecidableEq, Repr

/-- `data.View`: the persisted active view name. -/
structure View where
  active : String
deriving DecidableEq, Repr

/-- `data.Context`: cluster name, namespace state, view state. -/
structure Context where
  clusterName : String
  ns : Namespace
  view : View
deriving DecidableEq, Repr

/-- The live cluster connection, used only as a namespace-existence oracle
during favorites validation; a Go nil interface is `Option Connection`. -/
structure Connection where
  validNamespaces : List String
deriving DecidableEq, Repr

/-- `data.KubeSettings`: opaque defaults provider, passed through unchanged. -/
abbrev KubeSettings := Unit

/-- Modelled from the spec: the logger configuration sub-object; only its
presence or absence matters to the shown code. -/
structure Logger where
  tail : Int
  buffer : Int
deriving DecidableEq, Repr

/-- Modelled from the spec: `NewLogger`, the lazily constructed default
logger configuration. -/
def NewLogger : Logger := { tail := 100, buffer := 5000 }

/-- Modelled from the spec: the `K9s` Context Registry — context records
keyed by name, the Active Context Pointer (empty string before first
activation), the one-shot manual command pointer, the logger config, and the
screen-dump directory setting. -/
structure K9s where
  contexts : List (String × Context)
  activeContextName : String
  manualCommand : Option String
  logger : Option Logger
  screenDumpDir : String
deriving DecidableEq, Repr

/-- `Config` from config.go: the root document (K9s registry, connection,
settings). -/
structure Config where
  k9s : K9s
  conn : Option Connection
  settings : KubeSettings
deriving DecidableEq, Repr

/-- The k9s CLI flag set; only `AllNamespaces *bool` is read by `Refine`. -/
structure Flags where
  allNamespaces : Option Bool
deriving DecidableEq, Repr

/-- `genericclioptions.ConfigFlags`: the `Context` and `Namespace` string
pointers read by `Refine` (the namespace pointer is named `ns` because
`namespace` is a Lean keyword). -/
structure ConfigFlags where
  context : Option String
  ns : Option String
deriving DecidableEq, Repr

/-- `isSet` from config.go: the string pointer is non-nil and non-empty. -/
def isSet : Option String → Bool
  | none => false
  | some s => s.length != 0

/-- Modelled from the spec: `IsBoolSet` — the boolean flag pointer is non-nil
and points at true. -/
def IsBoolSet : Option Bool → Bool
  | none => false
  | some b => b

/-- The guard of Refine's first switch case, exactly
`k9sFlags != nil && IsBoolSet(k9sFlags.AllNamespaces)`. -/
def allNamespacesSet : Option Flags → Bool
  | none => false
  | some kf => IsBoolSet kf.allNamespaces

/-- First-match association-list lookup, the registry's map access. -/
def lookupCtx : List (String × Context) → String → Option Context
  | [], _ => none
  | p :: rest, n => if p.1 = n then some p.2 else lookupCtx rest n

/-- Replace the first entry with the given key, modelling an in-place update
through the Go pointer returned by the registry lookup. -/
def updateFirst : List (String × Context) → String → Context → List (String × Context)
  | [], _, _ => []
  | p :: rest, n, ct => if p.1 = n then (n, ct) :: rest else p :: updateFirst rest n ct

/-- Modelled from the spec: a lazily created Context record, fields defaulted
as needed (empty persisted namespace, default view). -/
def newContext (n : String) : Context :=
  { clusterName := n, ns := { active := "", favorites := [] }, view := { active := DefaultView } }

/-- Modelled from the spec: `ActivateContext(name)` looks up or lazily
creates the record for `name`, sets it as the Active Context Pointer and
returns it; it fails (NotFoundError) only when the name is empty. -/
def K9s.activateContext (k : K9s) (n : String) : Except Err (Context × K9s) :=
  if n = "" then .error (.notFound n)
  else
    match lookupCtx k.contexts n with
    | some ct => .ok (ct, { k with activeContextName := n })
    | none =>
      .ok (newContext n,
           { k with contexts := k.contexts ++ [(n, newContext n)], activeContextName := n })

/-- Modelled from the spec: `ActiveContext()` returns the record pointed to
by the Active Context Pointer, failing with NoActiveContextError when none
has ever been activated. -/
def K9s.activeContext (k : K9s) : Except Err Context :=
  if k.activeContextName = "" then .error .noActiveContext
  else
    match lookupCtx k.contexts k.activeContextName with
    | some ct => .ok ct
    | none => .error .noActiveContext

/-- Modelled from the spec: `ActiveContextNamespace()` delegates to the
active Context's namespace state, failing with the same error when there is
no active context. -/
def K9s.activeContextNamespace (k : K9s) : Except Err String :=
  match k.activeContext with
  | .error e => .error e
  | .ok ct => .ok ct.ns.active

/-- Write an updated record for the active context back into the registry,
modelling mutation through the pointer obtained from `ActiveContext`. -/
def K9s.updateActive (k : K9s) (ct : Context) : K9s :=
  { k with contexts := updateFirst k.contexts k.activeContextName ct }

/-- Modelled from the spec: `Namespace.SetActive(ns, settings)` sets the
`Active` field; the settings-driven favorites normalization is a side effect
on fields no shown claim reads, and the settings lookup of this model never
fails. -/
def Namespace.SetActive (n : Namespace) (ns : String) (_s : KubeSettings) : Except Err Namespace :=
  .ok { n with active := ns }

/-- Modelled from the spec: `data.Context.Validate(conn, settings)` drops
favorites the connection reports as non-existent namespaces; a nil
connection makes it a no-op. -/
def Context.Validate (ct : Context) (conn : Option Connection) (_s : KubeSettings) : Context :=
  match conn with
  | none => ct
  | some cn =>
    { ct with ns := { ct.ns with
        favorites := ct.ns.favorites.filter (fun n => cn.validNamespaces.contains n) } }

/-- Modelled from the spec: `K9s.Validate(conn, settings)` validates the
active context (favorites pruning); without an active context it does
nothing. -/
def K9s.Validate (k : K9s) (conn : Option Connection) (s : KubeSettings) : K9s :=
  match k.activeContext with
  | .error _ => k
  | .ok ct => k.updateActive (ct.Validate conn s)

/-- Modelled from the spec: context-scoped aliases file path derived from the
(cluster-name, context-name) pair. -/
def AppContextAliasesFile (cluster ctx : String) : String :=
  "clusters/" ++ cluster ++ "/" ++ ctx ++ "/aliases.yaml"

/-- Modelled from the spec: context-scoped plugins file path derived from the
(cluster-name, context-name) pair. -/
def AppContextPluginsFile (cluster ctx : String) : String :=
  "clusters/" ++ cluster ++ "/" ++ ctx ++ "/plugins.yaml"

/-- Modelled from the spec: the default config file path written by `Save`. -/
def AppConfigFile : String := "config.yaml"

/-- `Config.ContextAliasesPath` from config.go: empty string when
`ActiveContext` errors, else the per-(cluster, context) aliases path. -/
def Config.ContextAliasesPath (c : Config) : String :=
  match c.k9s.activeContext with
  | .error _ => ""
  | .ok ct => AppContextAliasesFile ct.clusterName c.k9s.activeContextName

/-- `Config.ContextPluginsPath` from config.go: empty string when
`ActiveContext` errors, else the per-(cluster, context) plugins path. -/
def Config.ContextPluginsPath (c : Config) : String :=
  match c.k9s.activeContext with
  | .error _ => ""
  | .ok ct => AppContextPluginsFile ct.clusterName c.k9s.activeContextName

/-- Injected results of Refine's external collaborators: the live
connection's `CurrentContextName()` and `data.EnsureDirPath(dir, mode)`. -/
structure RefineEnv where
  currentContextName : Except Err String
  ensureDirPath : String → Nat → Except Err Unit

/-- Lines 71–84 of config.go condensed to the name that gets activated: the
explicit context flag when set and non-empty, otherwise the connection's
current-context name (whose error propagates). -/
def resolvedContextName (flags : ConfigFlags) (env : RefineEnv) : Except Err String :=
  if isSet flags.context then .ok (flags.context.getD "")
  else env.currentContextName

/-- `Config.ActiveNamespace` from config.go: on any error from the registry
lookup, log and substitute the default namespace constant. -/
def Config.ActiveNamespace (c : Config) : String :=
  match c.k9s.activeContextNamespace with
  | .error _ => DefaultNamespace
  | .ok ns => ns

/-- `Config.ValidateFavorites` from config.go: returns (no error) when there
is no active context, else validates the active context in place. -/
def Config.ValidateFavorites (c : Config) : Config :=
  match c.k9s.activeContext with
  | .error _ => c
  | .ok ct => { c with k9s := c.k9s.updateActive (ct.Validate c.conn c.settings) }

/-- `Config.FavNamespaces` from config.go. -/
def Config.FavNamespaces (c : Config) : List String :=
  match c.k9s.activeContext with
  | .error _ => []
  | .ok ct => ct.ns.favorites

/-- `Config.SetActiveNamespace` from config.go: surfaces the
NoActiveContextError, else sets the active context's namespace in place. -/
def Config.SetActiveNamespace (c : Config) (ns : String) : Except Err Config :=
  match c.k9s.activeContext with
  | .error e => .error e
  | .ok ct =>
    match ct.ns.SetActive ns c.settings with
    | .error e => .error e
    | .ok nsr => .ok { c with k9s := c.k9s.updateActive { ct with ns := nsr } }

/-- `Config.ActiveView` from config.go: default view when no context is
active; otherwise the persisted active view, overridden by a non-nil
non-empty manual command which is cleared (set to the empty string, the
pointer staying non-nil) after this first read.  The returned pair carries
the mutated-receiver state. -/
def Config.ActiveView (c : Config) : String × Config :=
  match c.k9s.activeContext with
  | .error _ => (DefaultView, c)
  | .ok ct =>
    match c.k9s.manualCommand with
    | some mc =>
      if mc != "" then
        (mc, { c with k9s := { c.k9s with manualCommand := some "" } })
      else (ct.view.active, c)
    | none => (ct.view.active, c)

/-- `Config.Refine` from config.go: activate the resolved context, resolve
the namespace by the switch's precedence (all-namespaces flag, explicit
namespace flag, persisted namespace), substitute the default namespace for
an empty resolution, commit it, then ensure the screen-dump directory. -/
def Config.Refine (c : Config) (flags : ConfigFlags) (k9sFlags : Option Flags)
    (env : RefineEnv) : Except Err Config :=
  match resolvedContextName flags env with
  | .error e => .error e
  | .ok n =>
    match c.k9s.activateContext n with
    | .error e => .error e
    | .ok (_, k1) =>
      match (if allNamespacesSet k9sFlags then Except.ok NamespaceAll
             else if isSet flags.ns then Except.ok (flags.ns.getD "")
             else k1.activeContextNamespace) with
      | .error e => .error e
      | .ok nss =>
        match Config.SetActiveNamespace { c with k9s := k1 }
            (if nss = "" then DefaultNamespace else nss) with
        | .error e => .error e
        | .ok c2 =>
          match env.ensureDirPath k1.screenDumpDir DefaultDirMod with
          | .error e => .error e
          | .ok _ => .ok c2

/-- The unmarshal target of `Load`: a document whose top-level `k9s` object
may be absent (`var cfg Config` with `K9s *K9s`). -/
structure LoadedConfig where
  k9s : Option K9s
deriving DecidableEq, Repr

/-- Injected results of Load's collaborators: `os.ReadFile` (failures are
IOErrors) and `yaml.Unmarshal` (failures are DecodeErrors). -/
structure LoadEnv where
  readFile : Except Err String
  unmarshal : String → Except Err LoadedConfig

/-- Modelled from the spec: `K9s.Refine(loaded)` merges a freshly loaded
registry into the live one field by field, loaded values winning only where
present. -/
def K9s.Refine (k loaded : K9s) : K9s :=
  { contexts := if loaded.contexts.isEmpty then k.contexts else loaded.contexts,
    activeContextName :=
      if loaded.activeContextName = "" then k.activeContextName
      else loaded.activeContextName,
    manualCommand :=
      match loaded.manualCommand with
      | some m => some m
      | none => k.manualCommand,
    logger :=
      match loaded.logger with
      | some lg => some lg
      | none => k.logger,
    screenDumpDir :=
      if loaded.screenDumpDir = "" then k.screenDumpDir else loaded.screenDumpDir }

/-- `Config.Load` from config.go: propagate read and decode failures
unchanged; merge only a non-nil loaded `K9s`; lazily construct the default
logger when none is present after the merge. -/
def Config.Load (c : Config) (env : LoadEnv) : Except Err Config :=
  match env.readFile with
  | .error e => .error e
  | .ok f =>
    match env.unmarshal f with
    | .error e => .error e
    | .ok cfg =>
      match (match cfg.k9s with
             | some loaded => c.k9s.Refine loaded
             | none => c.k9s) with
      | k1 =>
        match k1.logger with
        | none => .ok { c with k9s := { k1 with logger := some NewLogger } }
        | some _ => .ok { c with k9s := k1 }

/-- `Config.Validate` from config.go. -/
def Config.Validate (c : Config) : Config :=
  { c with k9s := c.k9s.Validate c.conn c.settings }

/-- Injected results of Save's collaborators: the registry save
(`K9s.Save()`, whose failures the spec describes as ValidationError-wrapped),
`data.EnsureDirPath`, `yaml.Marshal` and `os.WriteFile` (an I/O failure is
reported as an error message). -/
structure SaveEnv where
  k9sSave : Option Err
  ensureDirPath : String → Nat → Except Err Unit
  marshal : Config → Except Err String
  writeFile : String → String → Nat → Option String

/-- `Config.SaveFile` from config.go: ensure the parent directory with the
fixed directory mode, marshal the document, write with the fixed file mode;
returns the serialized bytes on success. -/
def Config.SaveFile (c : Config) (path : String) (env : SaveEnv) : Except Err String :=
  match env.ensureDirPath path DefaultDirMod with
  | .error e => .error e
  | .ok _ =>
    match env.marshal c with
    | .error e => .error e
    | .ok bs =>
      match env.writeFile path bs DefaultFileMod with
      | some msg => .error (.ioError msg)
      | none => .ok bs

/-- `Config.Save` from config.go: validate first (mutating the receiver),
propagate a registry-save failure unchanged, else write the validated
document to the default config file. -/
def Config.Save (c : Config) (env : SaveEnv) : Except Err String :=
  match env.k9sSave with
  | some e => .error e
  | none => (c.Validate).SaveFile AppConfigFile env

theorem lookupCtx_append_right (l : List (String × Context)) (n : String) (ct : Context)
    (h : lookupCtx l n = none) : lookupCtx (l ++ [(n, ct)]) n = some ct := by
  induction l with
  | nil => simp [lookupCtx]
  | cons p rest ih =>
    by_cases hp : p.1 = n
    · simp [lookupCtx, hp] at h
    · simp only [lookupCtx, hp, if_false, List.cons_append] at h ⊢
      exact ih h

theorem lookupCtx_updateFirst (l : List (String × Context)) (n : String) (ct ct' : Context)
    (h : lookupCtx l n = some ct) : lookupCtx (updateFirst l n ct') n = some ct' := by
  induction l with
  | nil => simp [lookupCtx] at h
  | cons p rest ih =>
    by_cases hp : p.1 = n
    · simp [lookupCtx, updateFirst, hp]
    · simp only [lookupCtx, hp, if_false] at h
      simp only [updateFirst, hp, if_false, lookupCtx]
      exact ih h

theorem updateFirst_self (l : List (String × Context)) (n : String) (ct : Context)
    (h : lookupCtx l n = some ct) : updateFirst l n ct = l := by
  induction l with
  | nil => simp [lookupCtx] at h
  | cons p rest ih =>
    by_cases hp : p.1 = n
    · simp only [lookupCtx, hp, if_true, Option.some.injEq] at h
      simp only [updateFirst, hp, if_true]
      rw [← h, ← hp]
    · simp only [lookupCtx, hp, if_false] at h
      simp only [updateFirst, hp, if_false]
      rw [ih h]

theorem activateContext_ok (k : K9s) (n : String) (ct : Context) (k1 : K9s)
    (h : k.activateContext n = .ok (ct, k1)) :
    n ≠ "" ∧ k1.activeContextName = n ∧ lookupCtx k1.contexts n = some ct ∧
    k1.manualCommand = k.manualCommand ∧ k1.logger = k.logger ∧
    k1.screenDumpDir = k.screenDumpDir := by
  unfold K9s.activateContext at h
  split at h
  · exact Except.noConfusion h
  · rename_i hne
    split at h
    · rename_i ct0 hl
      simp only [Except.ok.injEq, Prod.mk.injEq] at h
      obtain ⟨hct, hk⟩ := h
      subst hct; subst hk
      exact ⟨hne, rfl, hl, rfl, rfl, rfl⟩
    · rename_i hl
      simp only [Except.ok.injEq, Prod.mk.injEq] at h
      obtain ⟨hct, hk⟩ := h
      subst hct; subst hk
      exact ⟨hne, rfl, lookupCtx_append_right _ _ _ hl, rfl, rfl, rfl⟩

theorem activeContext_of (k : K9s) (ct : Context)
    (hn : k.activeContextName ≠ "")
    (hl : lookupCtx k.contexts k.activeContextName = some ct) :
    k.activeContext = .ok ct := by
  unfold K9s.activeContext
  rw [if_neg hn, hl]

theorem activeContext_ok_elim (k : K9s) (ct : Context) (h : k.activeContext = .ok ct) :
    k.activeContextName ≠ "" ∧ lookupCtx k.contexts k.activeContextName = some ct := by
  unfold K9s.activeContext at h
  split at h
  · exact Except.noConfusion h
  · rename_i hn
    split at h
    · rename_i ct0 hl
      simp only [Except.ok.injEq] at h
      subst h
      exact ⟨hn, hl⟩
    · exact Except.noConfusion h

theorem updateActive_activeContext (k : K9s) (ct ct' : Context)
    (h : k.activeContext = .ok ct) : (k.updateActive ct').activeContext = .ok ct' := by
  obtain ⟨hn, hl⟩ := activeContext_ok_elim k ct h
  exact activeContext_of (k.updateActive ct') ct' hn (lookupCtx_updateFirst _ _ _ _ hl)

theorem activeContextNamespace_of (k : K9s) (ct : Context) (h : k.activeContext = .ok ct) :
    k.activeContextNamespace = .ok ct.ns.active := by
  unfold K9s.activeContextNamespace
  rw [h]

theorem setActiveNamespace_ok (c : Config) (ct : Context) (ns : String)
    (h : c.k9s.activeContext = .ok ct) :
    c.SetActiveNamespace ns =
      .ok { c with k9s := c.k9s.updateActive { ct with ns := { ct.ns with active := ns } } } := by
  unfold Config.SetActiveNamespace
  rw [h]
  rfl

theorem isSet_getD_ne (o : Option String) (h : isSet o = true) : o.getD "" ≠ "" := by
  cases o with
  | none => simp [isSet] at h
  | some s =>
    simp only [isSet, bne_iff_ne, ne_eq] at h
    intro hs
    simp only [Option.getD] at hs
    subst hs
    exact h rfl

theorem k9s_eta_logger (k : K9s) (lg : Logger) (h : k.logger = some lg) :
    { k with logger := some lg } = k := by
  cases k
  simp_all

/-- Every successful `Refine` run decomposes into a resolved context name, a
successful activation, a resolved namespace, and the committed (possibly
defaulted) namespace visible in the resulting state. -/
theorem refine_ok_elim (c c' : Config) (flags : ConfigFlags) (kf : Option Flags)
    (env : RefineEnv) (h : Config.Refine c flags kf env = .ok c') :
    ∃ n ct k1 nss,
      resolvedContextName flags env = .ok n ∧
      c.k9s.activateContext n = .ok (ct, k1) ∧
      (if allNamespacesSet kf then Except.ok NamespaceAll
       else if isSet flags.ns then Except.ok (flags.ns.getD "")
       else k1.activeContextNamespace) = Except.ok nss ∧
      c'.k9s.activeContextName = n ∧
      c'.k9s.activeContextNamespace =
        .ok (if nss = "" then DefaultNamespace else nss) := by
  unfold Config.Refine at h
  split at h
  · exact Except.noConfusion h
  · rename_i n hres
    split at h
    · exact Except.noConfusion h
    · rename_i ct0 k1 hact
      split at h
      · exact Except.noConfusion h
      · rename_i nss hnss
        split at h
        · exact Except.noConfusion h
        · rename_i c2 hset
          split at h
          · exact Except.noConfusion h
          · rename_i u hdir
            simp only [Except.ok.injEq] at h
            subst h
            obtain ⟨hne, hname, hlook, -, -, -⟩ := activateContext_ok _ _ _ _ hact
            have hctx : k1.activeContext = .ok ct0 := by
              refine activeContext_of k1 ct0 ?_ ?_
              · rw [hname]; exact hne
              · rw [hname]; exact hlook
            have hset' := setActiveNamespace_ok { c with k9s := k1 } ct0
              (if nss = "" then DefaultNamespace else nss) hctx
            rw [hset'] at hset
            simp only [Except.ok.injEq] at hset
            subst hset
            refine ⟨n, ct0, k1, nss, hres, hact, hnss, hname, ?_⟩
            exact activeContextNamespace_of _ _
              (updateActive_activeContext k1 ct0 _ hctx)
/-- C1: for every flag configuration, a successful `Refine` commits the
namespace with strict precedence — the all-namespaces flag forces the "all"
sentinel; else a set, non-empty namespace flag wins; else the activated
context's persisted namespace is used with the empty string replaced by the
default namespace constant — and the committed namespace is never empty. -/
theorem refine_namespace_precedence (c c' : Config) (flags : ConfigFlags)
    (kf : Option Flags) (env : RefineEnv)
    (h : Config.Refine c flags kf env = .ok c') :
    (allNamespacesSet kf = true → c'.k9s.activeContextNamespace = .ok NamespaceAll) ∧
    (allNamespacesSet kf = false → isSet flags.ns = true →
      c'.k9s.activeContextNamespace = .ok (flags.ns.getD "")) ∧
    (∀ n ct k1, allNamespacesSet kf = false → isSet flags.ns = false →
      resolvedContextName flags env = .ok n →
      c.k9s.activateContext n = .ok (ct, k1) →
      c'.k9s.activeContextNamespace =
        .ok (if ct.ns.active = "" then DefaultNamespace else ct.ns.active)) ∧
    (∀ ns, c'.k9s.activeContextNamespace = .ok ns → ns ≠ "") := by
  obtain ⟨n, ct, k1, nss, hres, hact, hnss, hname, hns⟩ :=
    refine_ok_elim c c' flags kf env h
  refine ⟨?_, ?_, ?_, ?_⟩
  · intro hall
    rw [hall] at hnss
    simp only [if_true] at hnss
    simp only [Except.ok.injEq] at hnss
    rw [hns, ← hnss]
    decide
  · intro hall hflag
    rw [hall, hflag] at hnss
    simp only [Bool.false_eq_true, if_false, if_true] at hnss
    simp only [Except.ok.injEq] at hnss
    rw [hns, ← hnss, if_neg (isSet_getD_ne flags.ns hflag)]
  · intro n' ct' k1' hall hflag hres' hact'
    rw [hall, hflag] at hnss
    simp only [Bool.false_eq_true, if_false] at hnss
    rw [hres] at hres'
    simp only [Except.ok.injEq] at hres'
    subst hres'
    rw [hact] at hact'
    simp only [Except.ok.injEq, Prod.mk.injEq] at hact'
    obtain ⟨hct, hk⟩ := hact'
    subst hct; subst hk
    obtain ⟨hne, hname', hlook, -, -, -⟩ := activateContext_ok _ _ _ _ hact
    have hctx : k1.activeContext = .ok ct := by
      refine activeContext_of k1 ct ?_ ?_
      · rw [hname']; exact hne
      · rw [hname']; exact hlook
    rw [activeContextNamespace_of k1 ct hctx] at hnss
    simp only [Except.ok.injEq] at hnss
    rw [hns, ← hnss]
  · intro ns hnsEq
    rw [hns] at hnsEq
    simp only [Except.ok.injEq] at hnsEq
    subst hnsEq
    by_cases hb : nss = ""
    · rw [if_pos hb]; decide
    · rw [if_neg hb]; exact hb

/-- C3: `Refine` resolves the context from the explicit flag when set and
non-empty, else from the connection's current-context name; errors from the
connection lookup or the activation abort reconciliation and are returned
unchanged. -/
theorem refine_context_resolution (c : Config) (flags : ConfigFlags) (kf : Option Flags)
    (env : RefineEnv) :
    (∀ e, isSet flags.context = false → env.currentContextName = .error e →
      Config.Refine c flags kf env = .error e) ∧
    (∀ n e, resolvedContextName flags env = .ok n →
      c.k9s.activateContext n = .error e →
      Config.Refine c flags kf env = .error e) ∧
    (∀ c', Config.Refine c flags kf env = .ok c' →
      (isSet flags.context = true → c'.k9s.activeContextName = flags.context.getD "") ∧
      (isSet flags.context = false →
        ∃ n, env.currentContextName = .ok n ∧ c'.k9s.activeContextName = n)) := by
  refine ⟨?_, ?_, ?_⟩
  · intro e hset herr
    unfold Config.Refine
    have hres : resolvedContextName flags env = .error e := by
      simp [resolvedContextName, hset, herr]
    rw [hres]
  · intro n e hres hact
    simp only [Config.Refine, hres, hact]
  · intro c' h
    obtain ⟨n, ct, k1, nss, hres, hact, hnss, hname, hns⟩ :=
      refine_ok_elim c c' flags kf env h
    constructor
    · intro hset
      have hr : resolvedContextName flags env = .ok (flags.context.getD "") := by
        simp [resolvedContextName, hset]
      rw [hr] at hres
      simp only [Except.ok.injEq] at hres
      rw [hname, ← hres]
    · intro hset
      refine ⟨n, ?_, hname⟩
      have hr : resolvedContextName flags env = env.currentContextName := by
        simp [resolvedContextName, hset]
      rw [← hr, hres]

/-- C9: a nil `k9sFlags` pointer never gets dereferenced by `Refine`: the
guard short-circuits, so a nil flag set behaves exactly like a flag set whose
all-namespaces pointer is nil or points at false, and namespace resolution
falls through to the remaining precedence chain. -/
theorem refine_nil_k9sFlags (c : Config) (flags : ConfigFlags) (env : RefineEnv) :
    Config.Refine c flags none env
      = Config.Refine c flags (some { allNamespaces := none }) env ∧
    Config.Refine c flags none env
      = Config.Refine c flags (some { allNamespaces := some false }) env ∧
    allNamespacesSet none = false :=
  ⟨rfl, rfl, rfl⟩

/-- C6: `ActiveNamespace` is total and recovers locally: any error from the
registry lookup — in particular the NoActiveContextError arising whenever no
context has been activated — is replaced by the default namespace constant,
and a successful lookup is returned as is. -/
theorem activeNamespace_recovers (c : Config) :
    (∀ e, c.k9s.activeContextNamespace = .error e →
      c.ActiveNamespace = DefaultNamespace) ∧
    (c.k9s.activeContextName = "" → c.ActiveNamespace = DefaultNamespace) ∧
    (∀ ns, c.k9s.activeContextNamespace = .ok ns → c.ActiveNamespace = ns) := by
  refine ⟨?_, ?_, ?_⟩
  · intro e h
    unfold Config.ActiveNamespace
    rw [h]
  · intro h
    unfold Config.ActiveNamespace K9s.activeContextNamespace K9s.activeContext
    rw [if_pos h]
  · intro ns h
    unfold Config.ActiveNamespace
    rw [h]

/-- C7: with an active context and a non-nil, non-empty manual command, the
first `ActiveView` call returns the manual command and clears it, and every
later call returns the context's persisted active view (the post-first-call
state is a fixed point). -/
theorem activeView_manual_once (c : Config) (ct : Context) (mc : String)
    (hctx : c.k9s.activeContext = .ok ct) (hmc : c.k9s.manualCommand = some mc)
    (hne : mc ≠ "") :
    (c.ActiveView).1 = mc ∧
    (((c.ActiveView).2).ActiveView).1 = ct.view.active ∧
    (((c.ActiveView).2).ActiveView).2 = (c.ActiveView).2 := by
  have h1 : c.ActiveView
      = (mc, { c with k9s := { c.k9s with manualCommand := some "" } }) := by
    unfold Config.ActiveView
    rw [hctx, hmc]
    simp [hne]
  have hctx1 : ({ c with k9s := { c.k9s with manualCommand := some "" } } : Config).k9s.activeContext
      = .ok ct := hctx
  have h2 : ({ c with k9s := { c.k9s with manualCommand := some "" } } : Config).ActiveView
      = (ct.view.active, { c with k9s := { c.k9s with manualCommand := some "" } }) := by
    unfold Config.ActiveView
    rw [hctx1]
    rfl
  rw [h1]
  exact ⟨rfl, by rw [h2], by rw [h2]⟩

/-- C8: favorites validation never raises: `ValidateFavorites` is total, and
with a nil connection or no active context it returns the configuration
unchanged. -/
theorem validateFavorites_offline (c : Config) :
    (c.conn = none → c.ValidateFavorites = c) ∧
    (∀ e, c.k9s.activeContext = .error e → c.ValidateFavorites = c) := by
  constructor
  · intro hconn
    unfold Config.ValidateFavorites
    split
    · rfl
    · rename_i ct hctx
      have hv : ct.Validate c.conn c.settings = ct := by rw [hconn]; rfl
      rw [hv]
      obtain ⟨hn, hl⟩ := activeContext_ok_elim _ _ hctx
      unfold K9s.updateActive
      rw [updateFirst_self _ _ _ hl]
  · intro e h
    unfold Config.ValidateFavorites
    rw [h]

/-- C10: the context-scoped aliases and plugins paths are the empty string —
not an error or a panic — whenever `ActiveContext` fails (no context ever
activated); with an active context they are the per-(cluster-name,
context-name) file paths. -/
theorem contextPaths_require_active (c : Config) :
    (∀ e, c.k9s.activeContext = .error e →
      c.ContextAliasesPath = "" ∧ c.ContextPluginsPath = "") ∧
    (∀ ct, c.k9s.activeContext = .ok ct →
      c.ContextAliasesPath = AppContextAliasesFile ct.clusterName c.k9s.activeContextName ∧
      c.ContextPluginsPath = AppContextPluginsFile ct.clusterName c.k9s.activeContextName) := by
  constructor
  · intro e h
    refine ⟨?_, ?_⟩
    · unfold Config.ContextAliasesPath; rw [h]
    · unfold Config.ContextPluginsPath; rw [h]
  · intro ct h
    refine ⟨?_, ?_⟩
    · unfold Config.ContextAliasesPath; rw [h]
    · unfold Config.ContextPluginsPath; rw [h]

/-- C2 (counterexample): the claim is false on the code — for the
extension-less path "cfg" with no sibling files on disk `YamlExtension`
returns "cfg" unchanged, not "cfg.yml", and even when "cfg.yaml" exists it
still returns "cfg", not "cfg.yaml". -/
theorem yamlExtension_counterexample :
    YamlExtension (fun _ => false) "cfg" ≠ "cfg.yml" ∧
    YamlExtension (fun p => p == "cfg.yaml") "cfg" ≠ "cfg.yaml" := by
  decide

/-- C2 (amended): a path without a recognized YAML extension is returned
unchanged (after a logged error); a path with a YAML extension is resolved
to its `.yml` variant when that file exists on disk, and to its `.yaml`
variant otherwise. -/
theorem yamlExtension_resolution (statExists : String → Bool) (path : String) :
    (isYamlFile path = false → YamlExtension statExists path = path) ∧
    (isYamlFile path = true →
      statExists (trimSuffix path (Ext path) ++ ".yml") = true →
      YamlExtension statExists path = trimSuffix path (Ext path) ++ ".yml") ∧
    (isYamlFile path = true →
      statExists (trimSuffix path (Ext path) ++ ".yml") = false →
      YamlExtension statExists path = trimSuffix path (Ext path) ++ ".yaml") := by
  refine ⟨?_, ?_, ?_⟩
  · intro h1
    simp [YamlExtension, h1]
  · intro h1 h2
    simp [YamlExtension, h1, h2]
  · intro h1 h2
    simp [YamlExtension, h1, h2]

/-- C4: `Load` propagates read failures (IOErrors) and decode failures
(DecodeErrors) unchanged, leaving the in-memory document untouched; a
document without a top-level K9s object changes nothing except that a
default logger is constructed when none is present; a non-nil K9s object is
merged, again with the logger defaulted afterwards. -/
theorem load_merge_frame (c : Config) (env : LoadEnv) :
    (∀ e, env.readFile = .error e → c.Load env = .error e) ∧
    (∀ f e, env.readFile = .ok f → env.unmarshal f = .error e →
      c.Load env = .error e) ∧
    (∀ f, env.readFile = .ok f → env.unmarshal f = .ok { k9s := none } →
      c.Load env = .ok { c with k9s :=
        { c.k9s with logger := some (c.k9s.logger.getD NewLogger) } }) ∧
    (∀ f loaded, env.readFile = .ok f → env.unmarshal f = .ok { k9s := some loaded } →
      c.Load env = .ok { c with k9s :=
        { c.k9s.Refine loaded with
          logger := some ((c.k9s.Refine loaded).logger.getD NewLogger) } }) := by
  refine ⟨?_, ?_, ?_, ?_⟩
  · intro e h
    unfold Config.Load
    rw [h]
  · intro f e hf he
    simp only [Config.Load, hf, he]
  · intro f hf hu
    simp only [Config.Load, hf, hu]
    cases hl : c.k9s.logger with
    | none => rfl
    | some lg =>
      simp only [Option.getD]
      rw [k9s_eta_logger c.k9s lg hl]
  · intro f loaded hf hu
    simp only [Config.Load, hf, hu]
    cases hl : (c.k9s.Refine loaded).logger with
    | none => rfl
    | some lg =>
      simp only [Option.getD]
      rw [k9s_eta_logger _ lg hl]

/-- C5: `Save` invokes validation first as a pre-save side effect (the
serialized document is the validated one), fails with the registry-save
error unchanged (which the spec describes as ValidationError-wrapped),
otherwise ensures the parent directory with the fixed directory mode,
serializes the full document and writes it with the fixed file mode,
returning an IOError on write failure. -/
theorem save_validate_then_write (c : Config) (env : SaveEnv) :
    (∀ e, env.k9sSave = some e → c.Save env = .error e) ∧
    (env.k9sSave = none → c.Save env = (c.Validate).SaveFile AppConfigFile env) ∧
    (∀ bs, c.Save env = .ok bs →
      env.k9sSave = none ∧
      env.ensureDirPath AppConfigFile DefaultDirMod = .ok () ∧
      env.marshal c.Validate = .ok bs ∧
      env.writeFile AppConfigFile bs DefaultFileMod = none) ∧
    (∀ bs msg, env.k9sSave = none →
      env.ensureDirPath AppConfigFile DefaultDirMod = .ok () →
      env.marshal c.Validate = .ok bs →
      env.writeFile AppConfigFile bs DefaultFileMod = some msg →
      c.Save env = .error (.ioError msg)) := by
  refine ⟨?_, ?_, ?_, ?_⟩
  · intro e h
    unfold Config.Save
    rw [h]
  · intro h
    unfold Config.Save
    rw [h]
  · intro bs h
    unfold Config.Save at h
    split at h
    · exact Except.noConfusion h
    · rename_i hk
      unfold Config.SaveFile at h
      split at h
      · exact Except.noConfusion h
      · rename_i u hd
        split at h
        · exact Except.noConfusion h
        · rename_i bs' hm
          split at h
          · exact Except.noConfusion h
          · rename_i hw
            simp only [Except.ok.injEq] at h
            subst h
            exact ⟨hk, hd, hm, hw⟩
  · intro bs msg hk hd hm hw
    simp only [Config.Save, Config.SaveFile, hk, hd, hm, hw]

/-! Concrete sample states used by the witnesses below. -/

/-- A context whose persisted namespace is "staging". -/
def ctxDev : Context :=
  { clusterName := "dev-cluster",
    ns := { active := "staging", favorites := ["default"] },
    view := { active := "pods" } }

/-- A registry knowing context "dev" with no context activated yet. -/
def k9sDev : K9s :=
  { contexts := [("dev", ctxDev)], activeContextName := "", manualCommand := none,
    logger := none, screenDumpDir := "/tmp/scr" }

/-- A configuration with a nil connection and no active context. -/
def cfgDev : Config := { k9s := k9sDev, conn := none, settings := () }

/-- Collaborators for Refine: the connection reports current context "dev"
and directory creation succeeds. -/
def envDev : RefineEnv :=
  { currentContextName := .ok "dev", ensureDirPath := fun _ _ => .ok () }

/-- CLI flags: no context flag, explicit namespace flag "prod". -/
def flagsProd : ConfigFlags := { context := none, ns := some "prod" }

/-- No CLI flags set at all. -/
def flagsNone : ConfigFlags := { context := none, ns := none }

/-- The state `Refine cfgDev flagsProd _ envDev` commits: context "dev"
activated, namespace "prod" committed. -/
def cfgDevRefined : Config :=
  { k9s :=
      { contexts :=
          [("dev",
            { clusterName := "dev-cluster",
              ns := { active := "prod", favorites := ["default"] },
              view := { active := "pods" } })],
        activeContextName := "dev",
        manualCommand := none,
        logger := none,
        screenDumpDir := "/tmp/scr" },
    conn := none, settings := () }

/-- Collaborators for Refine whose connection lookup fails. -/
def envBoom : RefineEnv :=
  { currentContextName := .error (.ioError "boom"), ensureDirPath := fun _ _ => .ok () }

/-- A configuration with context "dev" active and a pending manual command. -/
def cfgView : Config :=
  { k9s :=
      { contexts := [("dev", ctxDev)],
        activeContextName := "dev",
        manualCommand := some "xray",
        logger := none,
        screenDumpDir := "" },
    conn := none, settings := () }

/-- C1 witness: the spec's precedence scenario — explicit namespace flag
"prod" beats the persisted "staging" of the activated context "dev". -/
theorem refine_namespace_precedence_witness :
    Config.Refine cfgDev flagsProd (some { allNamespaces := some false }) envDev
      = .ok cfgDevRefined ∧
    cfgDevRefined.k9s.activeContextNamespace = .ok "prod" := by
  refine ⟨by decide, ?_⟩
  exact (refine_namespace_precedence cfgDev cfgDevRefined flagsProd
    (some { allNamespaces := some false }) envDev (by decide)).2.1 (by decide) (by decide)

/-- C2 (amended) witness: a `.yml` path with no file on disk resolves to the
`.yaml` variant. -/
theorem yamlExtension_resolution_witness :
    YamlExtension (fun _ => false) "cfg.yml" = "cfg.yaml" := by
  have h := (yamlExtension_resolution (fun _ => false) "cfg.yml").2.2 (by decide) rfl
  exact h.trans (by decide)

/-- C3 witness: with no context flag, a failing connection lookup aborts
Refine with that exact error. -/
theorem refine_context_resolution_witness :
    Config.Refine cfgDev flagsNone none envBoom = .error (.ioError "boom") :=
  (refine_context_resolution cfgDev flagsNone none envBoom).1 (.ioError "boom") rfl rfl

/-- C4 witness: loading a document whose K9s object is absent leaves the
state unchanged except for the lazily constructed default logger. -/
theorem load_merge_frame_witness :
    Config.Load cfgDev
      { readFile := .ok "k9s:", unmarshal := fun _ => .ok { k9s := none } }
      = .ok { cfgDev with k9s := { cfgDev.k9s with logger := some NewLogger } } :=
  (load_merge_frame cfgDev
    { readFile := .ok "k9s:", unmarshal := fun _ => .ok { k9s := none } }).2.2.1
    "k9s:" rfl rfl

/-- Save collaborators that all succeed, marshalling to "doc". -/
def envSaveOk : SaveEnv :=
  { k9sSave := none, ensureDirPath := fun _ _ => .ok (),
    marshal := fun _ => .ok "doc", writeFile := fun _ _ _ => none }

/-- C5 witness: a successful save serializes the validated document. -/
theorem save_validate_then_write_witness :
    Config.Save cfgDev envSaveOk = .ok "doc" ∧
    envSaveOk.marshal cfgDev.Validate = .ok "doc" := by
  refine ⟨by decide, ?_⟩
  exact ((save_validate_then_write cfgDev envSaveOk).2.2.1 "doc" (by decide)).2.2.1

/-- C6 witness: with no context ever activated, `ActiveNamespace` returns
the default namespace constant instead of an error. -/
theorem activeNamespace_recovers_witness :
    cfgDev.ActiveNamespace = DefaultNamespace :=
  (activeNamespace_recovers cfgDev).2.1 rfl

/-- C7 witness: the manual command "xray" is returned once; the second call
returns the persisted view "pods". -/
theorem activeView_manual_once_witness :
    (cfgView.ActiveView).1 = "xray" ∧
    (((cfgView.ActiveView).2).ActiveView).1 = "pods" := by
  have h := activeView_manual_once cfgView ctxDev "xray" (by decide) rfl (by decide)
  exact ⟨h.1, h.2.1⟩

/-- C8 witness: favorites validation with a nil connection changes nothing. -/
theorem validateFavorites_offline_witness :
    cfgDev.ValidateFavorites = cfgDev :=
  (validateFavorites_offline cfgDev).1 rfl

/-- C10 witness: with no context ever activated, both context-scoped paths
are the empty string. -/
theorem contextPaths_require_active_witness :
    cfgDev.ContextAliasesPath = "" ∧ cfgDev.ContextPluginsPath = "" :=
  (contextPaths_require_active cfgDev).1 .noActiveContext (by decide)

end K9sConfig
